import Mathlib

/-!
Shallow embedding of the CPU scheduling simulator (Process.cpp / Scheduler.cpp /
RoundRobinScheduler.cpp / PriorityScheduler.cpp / MultilevelQueueScheduler.cpp /
MultilevelFeedbackQueueScheduler.cpp).

C++ `int` fields are modelled as `Int`.  Mutable objects referenced through
`std::shared_ptr<Process>` are modelled by positions (`Nat` indices) into the
scheduler's `processes` list; pointer equality between two entries of that list
is index equality.  Configuration fields (time quantum, context-switch
overhead, aging parameters, queue descriptors) are written once by the
constructors and never mutated afterwards, so they are passed as parameters of
the step functions, while the mutable simulation data (process list, clock,
context-switch counter, queues, Gantt chart) lives in explicit state records.
The unbounded `while (!allComplete)` loops are modelled by fuel-indexed
iteration: `none` means the loop did not finish within the given fuel.
-/

namespace CpuSched

/-- ProcessState from Process.h. -/
inductive ProcessState where
  | NEW
  | READY
  | RUNNING
  | WAITING
  | TERMINATED
deriving DecidableEq, Repr

/-- The Process class from Process.h: identity, static workload, mutable
scheduling state and derived metrics. -/
structure Process where
  pid : Int
  name : String
  arrivalTime : Int
  burstTime : Int
  remainingTime : Int
  priority : Int
  state : ProcessState
  startTime : Int
  completionTime : Int
  waitingTime : Int
  turnaroundTime : Int
  responseTime : Int
  lastScheduledTime : Int
  firstSchedule : Bool
deriving DecidableEq, Repr

/-- The Process constructor (Process.cpp lines 10-16). -/
def Process.init (pid : Int) (name : String) (arrivalTime burstTime priority : Int) :
    Process :=
  { pid := pid
    name := name
    arrivalTime := arrivalTime
    burstTime := burstTime
    remainingTime := burstTime
    priority := priority
    state := ProcessState.NEW
    startTime := -1
    completionTime := -1
    waitingTime := 0
    turnaroundTime := 0
    responseTime := 0
    lastScheduledTime := arrivalTime
    firstSchedule := true }

/-- Process::execute (Process.cpp lines 18-26): consumes
min(quantum, remainingTime) and returns the amount consumed together with the
updated process. -/
def Process.execute (p : Process) (quantum : Int) : Int × Process :=
  let executionTime := min quantum p.remainingTime
  (executionTime, { p with remainingTime := p.remainingTime - executionTime })

/-- Process::calculateMetrics (Process.cpp lines 28-38). -/
def Process.calculateMetrics (p : Process) : Process :=
  { p with
    turnaroundTime := p.completionTime - p.arrivalTime
    responseTime := p.startTime - p.arrivalTime }

/-- Process::reset (Process.cpp lines 40-50).  Note that `priority` is not
restored. -/
def Process.reset (p : Process) : Process :=
  { p with
    remainingTime := p.burstTime
    state := ProcessState.NEW
    startTime := -1
    completionTime := -1
    waitingTime := 0
    turnaroundTime := 0
    responseTime := 0
    lastScheduledTime := p.arrivalTime
    firstSchedule := true }

/-- Process::isComplete (Process.h): remainingTime == 0. -/
def Process.isComplete (p : Process) : Bool :=
  p.remainingTime = 0

/-- Process setters and addWaitingTime from Process.h. -/
def Process.setState (p : Process) (s : ProcessState) : Process :=
  { p with state := s }

def Process.setPriority (p : Process) (n : Int) : Process :=
  { p with priority := n }

def Process.setStartTime (p : Process) (t : Int) : Process :=
  { p with startTime := t }

def Process.setCompletionTime (p : Process) (t : Int) : Process :=
  { p with completionTime := t }

def Process.setLastScheduledTime (p : Process) (t : Int) : Process :=
  { p with lastScheduledTime := t }

def Process.setFirstSchedule (p : Process) (b : Bool) : Process :=
  { p with firstSchedule := b }

def Process.addWaitingTime (p : Process) (t : Int) : Process :=
  { p with waitingTime := p.waitingTime + t }

/-- INT_MAX from climits, used as the sentinel in the arrival scans. -/
def INT_MAX : Int := 2147483647

/-- Update the i-th element of a list in place (out of range: unchanged);
models writing through a shared_ptr held in the processes vector, and writing
one slot of an indexed vector of queues. -/
def updAt {α : Type} : List α → Nat → (α → α) → List α
  | [], _, _ => []
  | p :: ps, 0, f => f p :: ps
  | p :: ps, n + 1, f => p :: updAt ps n f

/-- Read the i-th process (out of range: an irrelevant dummy, never reached by
the schedulers on well-formed queues). -/
def getP (ps : List Process) (i : Nat) : Process :=
  (ps.get? i).getD (Process.init 0 "" 0 0 0)

/-- Map over the process list with access to each index, used for the
`for (auto& p : processes)` loops that skip the currently dispatched process
by pointer comparison. -/
def mapIdxP (f : Nat → Process → Process) : List Process → List Process :=
  go 0
where
  go : Nat → List Process → List Process
    | _, [] => []
    | i, p :: ps => f i p :: go (i + 1) ps

/-- The mutable base-scheduler data from Scheduler.h: the process list, the
virtual clock, the context-switch counter and the currently running process
(a nullable shared_ptr, modelled as an optional index). -/
structure SchedState where
  processes : List Process
  currentTime : Int
  totalContextSwitches : Int
  currentProcess : Option Nat
deriving DecidableEq, Repr

/-- The `from` half of Scheduler::contextSwitch: demote a still-running
process back to READY. -/
def demoteFrom (p : Process) : Process :=
  if p.state = ProcessState.RUNNING then p.setState ProcessState.READY else p

/-- The `to` half of Scheduler::contextSwitch: promote to RUNNING and stamp
the start time (the clock value `t`) on the first-ever selection. -/
def promoteTo (t : Int) (p : Process) : Process :=
  let p1 := p.setState ProcessState.RUNNING
  if p1.firstSchedule then (p1.setStartTime t).setFirstSchedule false else p1

/-- Scheduler::contextSwitch (Scheduler.cpp lines 669-693 of main.cpp):
counts and charges overhead only for a switch between two distinct non-null
processes, demotes a still-running `from` to READY, promotes `to` to RUNNING
and records its startTime on first selection.  `ov` is the configured
contextSwitchOverhead. -/
def SchedState.contextSwitch (s : SchedState) (ov : Int)
    (fromIdx toIdx : Option Nat) : SchedState :=
  let s1 :=
    if fromIdx ≠ toIdx ∧ fromIdx.isSome ∧ toIdx.isSome then
      { s with
        totalContextSwitches := s.totalContextSwitches + 1
        currentTime := s.currentTime + ov }
    else s
  let s2 :=
    match fromIdx with
    | none => s1
    | some i => { s1 with processes := updAt s1.processes i demoteFrom }
  let s3 :=
    match toIdx with
    | none => s2
    | some j =>
        { s2 with processes := updAt s2.processes j (promoteTo s2.currentTime) }
  { s3 with currentProcess := toIdx }

/-- Scheduler::updateWaitingTimes (main.cpp lines 695-702). -/
def SchedState.updateWaitingTimes (s : SchedState) (elapsedTime : Int) : SchedState :=
  { s with
    processes := s.processes.map (fun p =>
      if p.state = ProcessState.READY then p.addWaitingTime elapsedTime else p) }

/-- Scheduler::admitArrivingProcesses (main.cpp lines 704-714), without the
returned count (no caller uses it). -/
def SchedState.admitArrivingProcesses (s : SchedState) : SchedState :=
  { s with
    processes := s.processes.map (fun p =>
      if p.state = ProcessState.NEW ∧ p.arrivalTime ≤ s.currentTime then
        p.setState ProcessState.READY
      else p) }

/-- The earliest arrival scan shared by every schedule() implementation. -/
def earliestArrival (ps : List Process) : Int :=
  ps.foldl (fun acc p => min acc p.arrivalTime) INT_MAX

/-- The next-arrival scan over NEW processes shared by every schedule()
implementation. -/
def nextArrival (ps : List Process) : Int :=
  ps.foldl (fun acc p =>
    if p.state = ProcessState.NEW then min acc p.arrivalTime else acc) INT_MAX

/-- The final `allComplete` scan of each scheduling loop. -/
def allTerminated (ps : List Process) : Bool :=
  ps.all (fun p => p.state = ProcessState.TERMINATED)

/-- Charge waiting time to every READY process other than the dispatched one
(the `p != process` pointer test becomes an index test). -/
def chargeWaitingExcept (ps : List Process) (idx : Nat) (t : Int) : List Process :=
  mapIdxP (fun j p =>
    if j ≠ idx ∧ p.state = ProcessState.READY then p.addWaitingTime t else p) ps

/-- Outcome of one iteration of a `while (!allComplete)` scheduling loop:
either the loop goes on or the run is complete. -/
inductive StepRes (σ : Type) where
  | next (s : σ)
  | halt (s : σ)
deriving DecidableEq, Repr

/-- The RoundRobinScheduler constructor (main.cpp lines 466-468): it stores the
quantum and the overhead unchanged; there is no validation of either value. -/
structure RRConfig where
  timeQuantum : Int
  contextSwitchOverhead : Int
deriving DecidableEq, Repr

def RRConfig.fromCtor (quantum contextSwitchOverhead : Int) : RRConfig :=
  { timeQuantum := quantum, contextSwitchOverhead := contextSwitchOverhead }

/-- Mutable state of RoundRobinScheduler: the shared base data, the FIFO ready
queue of process indices, and the Gantt chart. -/
structure RRState where
  sched : SchedState
  readyQueue : List Nat
  gantt : List String
deriving DecidableEq, Repr

/-- One iteration of the enqueue scans of RoundRobinScheduler::schedule
(main.cpp lines 493-513 and 573-593): a READY process whose
lastScheduledTime is before the current time and which is not already queued
is pushed and stamped.  `skip` is the dispatched process excluded by the
`p != process` test in the second scan. -/
def rrEnqueueOne (skip : Option Nat) (st : RRState) (i : Nat) : RRState :=
  if (getP st.sched.processes i).state = ProcessState.READY ∧ skip ≠ some i ∧
      (getP st.sched.processes i).lastScheduledTime < st.sched.currentTime ∧
      ¬ st.readyQueue.contains i then
    { st with
      readyQueue := st.readyQueue ++ [i]
      sched := { st.sched with
        processes := updAt st.sched.processes i
          (fun q => q.setLastScheduledTime st.sched.currentTime) } }
  else st

def rrEnqueuePass (skip : Option Nat) (st : RRState) : RRState :=
  (List.range st.sched.processes.length).foldl (rrEnqueueOne skip) st

/-- The completion check of a Round Robin dispatch (main.cpp lines 562-598):
either finalize the finished process or put it back to READY, admit and
enqueue the processes that arrived during its slice, and re-queue it at the
tail. -/
def rrFinishOrRequeue (st4 : RRState) (idx : Nat) : RRState :=
  if (getP st4.sched.processes idx).isComplete then
    { st4 with
      sched := { st4.sched with
        processes := updAt st4.sched.processes idx (fun p =>
          ((p.setCompletionTime st4.sched.currentTime).calculateMetrics).setState
            ProcessState.TERMINATED) } }
  else
    let st4a := { st4 with
      sched := { st4.sched with
        processes := updAt st4.sched.processes idx
          (fun p => p.setState ProcessState.READY) } }
    let st4b := { st4a with sched := st4a.sched.admitArrivingProcesses }
    let st4c := rrEnqueuePass (some idx) st4b
    { st4c with
      readyQueue := st4c.readyQueue ++ [idx]
      sched := { st4c.sched with
        processes := updAt st4c.sched.processes idx
          (fun p => p.setLastScheduledTime st4c.sched.currentTime) } }

/-- The dispatch part of one RoundRobinScheduler::schedule iteration
(main.cpp lines 537-600), after the head `idx` has been popped. -/
def rrDispatch (cfg : RRConfig) (st : RRState) (idx : Nat) : RRState :=
  let s1 := st.sched.contextSwitch cfg.contextSwitchOverhead
    st.sched.currentProcess (some idx)
  let er := (getP s1.processes idx).execute cfg.timeQuantum
  let executionTime := er.fst
  let s2 := { s1 with processes := updAt s1.processes idx (fun _ => er.snd) }
  let st2 : RRState := { st with
    sched := s2
    gantt := st.gantt ++
      List.replicate executionTime.toNat (getP s1.processes idx).name }
  let st3 := { st2 with
    sched := { st2.sched with
      currentTime := st2.sched.currentTime + executionTime } }
  let st4 := { st3 with
    sched := { st3.sched with
      processes := chargeWaitingExcept st3.sched.processes idx executionTime } }
  let st5 := rrFinishOrRequeue st4 idx
  { st5 with sched := { st5.sched with currentProcess := none } }

/-- One iteration of the `while (!allComplete)` loop of
RoundRobinScheduler::schedule (main.cpp lines 488-610). -/
def rrStep (cfg : RRConfig) (st : RRState) : StepRes RRState :=
  let stA := { st with sched := st.sched.admitArrivingProcesses }
  let stB := rrEnqueuePass none stA
  match stB.readyQueue with
  | [] =>
      let na := nextArrival stB.sched.processes
      if na ≠ INT_MAX then
        let stC := { stB with
          sched := stB.sched.updateWaitingTimes (na - stB.sched.currentTime) }
        StepRes.next { stC with
          sched := { stC.sched with currentTime := na }
          gantt := stC.gantt ++ ["IDLE"] }
      else
        StepRes.halt stB
  | idx :: rest =>
      let stC := rrDispatch cfg { stB with readyQueue := rest } idx
      if allTerminated stC.sched.processes then StepRes.halt stC
      else StepRes.next stC

/-- Fuel-indexed iteration of the Round Robin loop; `none` means the loop was
still running when the fuel ran out. -/
def rrLoop (cfg : RRConfig) : Nat → RRState → Option RRState
  | 0, _ => none
  | fuel + 1, st =>
      match rrStep cfg st with
      | StepRes.halt s => some s
      | StepRes.next s => rrLoop cfg fuel s

/-- Initial state of RoundRobinScheduler::schedule: fresh statistics and the
clock moved to the earliest arrival (main.cpp lines 475-483). -/
def rrStart (ps : List Process) : RRState :=
  { sched := { processes := ps
               currentTime := earliestArrival ps
               totalContextSwitches := 0
               currentProcess := none }
    readyQueue := []
    gantt := [] }

/-- RoundRobinScheduler::schedule as a whole, with fuel. -/
def rrSchedule (cfg : RRConfig) (fuel : Nat) (ps : List Process) : Option RRState :=
  rrLoop cfg fuel (rrStart ps)

/-- Apply `n` iterations of the Round Robin loop body, staying in place once
the loop has exited; used to name intermediate loop states. -/
def rrIter (cfg : RRConfig) : Nat → RRState → RRState
  | 0, st => st
  | n + 1, st =>
      match rrStep cfg st with
      | StepRes.halt s => s
      | StepRes.next s => rrIter cfg n s

/-- The PriorityScheduler constructor (PriorityScheduler.cpp lines 13-17):
stores its four arguments unchanged, with no validation. -/
structure PrioConfig where
  preemptive : Bool
  agingEnabled : Bool
  agingInterval : Int
  contextSwitchOverhead : Int
deriving DecidableEq, Repr

def PrioConfig.fromCtor (preemptive enableAging : Bool)
    (agingInterval contextSwitchOverhead : Int) : PrioConfig :=
  { preemptive := preemptive
    agingEnabled := enableAging
    agingInterval := agingInterval
    contextSwitchOverhead := contextSwitchOverhead }

/-- Mutable state of PriorityScheduler::schedule: the base data, the local
`runningProcess` pointer of the loop, and the Gantt chart.  The priority queue
is rebuilt from scratch from the READY processes at every iteration
(PriorityScheduler.cpp lines 62-72), so it is not part of the state. -/
structure PrioState where
  sched : SchedState
  runningProcess : Option Nat
  gantt : List String
deriving DecidableEq, Repr

/-- PriorityScheduler::applyAging (PriorityScheduler.cpp lines 25-37): a READY
process whose wait `currentTime - lastScheduledTime` has reached the aging
interval and whose priority value is positive gets its priority decremented. -/
def applyAging (cfg : PrioConfig) (s : SchedState) : SchedState :=
  if ¬ cfg.agingEnabled then s
  else
    { s with
      processes := s.processes.map (fun p =>
        if p.state = ProcessState.READY ∧
            cfg.agingInterval ≤ s.currentTime - p.lastScheduledTime ∧
            0 < p.priority then
          p.setPriority (p.priority - 1)
        else p) }

/-- The PriorityComparator of PriorityScheduler.h (lines 39-49) as a strict
"schedules before" test: lower priority value first, ties by earlier
arrival. -/
def prioBetter (a b : Process) : Bool :=
  if a.priority ≠ b.priority then a.priority < b.priority
  else a.arrivalTime < b.arrivalTime

/-- Top of the priority queue rebuilt from all READY processes
(PriorityScheduler.cpp lines 62-72 and 113): the READY process minimal in
(priority, arrivalTime); exact ties (equal priority and equal arrival) are
resolved to the earliest index, matching one fixed heap order.  Returns none
when no process is READY (empty queue). -/
def prioTop (ps : List Process) : Option Nat :=
  ((List.range ps.length).filter
      (fun i => (getP ps i).state = ProcessState.READY)).foldl
    (fun best i =>
      match best with
      | none => some i
      | some b => if prioBetter (getP ps i) (getP ps b) then some i else some b)
    none

/-- The empty-queue continuation of one non-preemptive running process
(PriorityScheduler.cpp lines 76-91): execute a single unit and finish the
process if it completes. -/
def prioRunUnit (st : PrioState) (r : Nat) : StepRes PrioState :=
  let er := (getP st.sched.processes r).execute 1
  let s1 := { st.sched with
    processes := updAt st.sched.processes r (fun _ => er.snd) }
  let st1 := { st with
    sched := { s1 with currentTime := s1.currentTime + 1 }
    gantt := st.gantt ++ [(getP st.sched.processes r).name] }
  if (getP st1.sched.processes r).isComplete then
    StepRes.next { st1 with
      sched := { st1.sched with
        processes := updAt st1.sched.processes r (fun p =>
          ((p.setCompletionTime st1.sched.currentTime).calculateMetrics).setState
            ProcessState.TERMINATED) }
      runningProcess := none }
  else StepRes.next st1

/-- The idle-or-done branch of PriorityScheduler::schedule (lines 94-109): an
IDLE slot and a jump to the next arrival, or loop exit.  No waiting time is
charged here. -/
def prioIdleOrHalt (st : PrioState) : StepRes PrioState :=
  let na := nextArrival st.sched.processes
  if na ≠ INT_MAX then
    StepRes.next { st with
      sched := { st.sched with currentTime := na }
      gantt := st.gantt ++ ["IDLE"] }
  else StepRes.halt st

/-- The non-preemptive dispatch (PriorityScheduler.cpp lines 152-181): run the
selected process to completion in one slice. -/
def prioDispatchNP (cfg : PrioConfig) (st : PrioState) (topIdx : Nat) : PrioState :=
  let s1 := st.sched.contextSwitch cfg.contextSwitchOverhead
    st.runningProcess (some topIdx)
  let burst := (getP s1.processes topIdx).remainingTime
  let er := (getP s1.processes topIdx).execute burst
  let s2 := { s1 with processes := updAt s1.processes topIdx (fun _ => er.snd) }
  let s3 := { s2 with processes := chargeWaitingExcept s2.processes topIdx burst }
  let s4 := { s3 with currentTime := s3.currentTime + burst }
  let s5 := { s4 with
    processes := updAt s4.processes topIdx (fun p =>
      ((p.setCompletionTime s4.currentTime).calculateMetrics).setState
        ProcessState.TERMINATED) }
  { st with
    sched := s5
    runningProcess := none
    gantt := st.gantt ++
      List.replicate burst.toNat (getP s1.processes topIdx).name }

/-- The preemptive dispatch (PriorityScheduler.cpp lines 116-150): possibly
preempt towards a strictly higher-precedence arrival, then execute the running
process for one time unit. -/
def prioDispatchP (cfg : PrioConfig) (st : PrioState) (topIdx : Nat) : PrioState :=
  let st1 :=
    match st.runningProcess with
    | some r =>
        if r ≠ topIdx ∧
            (getP st.sched.processes topIdx).priority <
              (getP st.sched.processes r).priority then
          let s := { st.sched with
            processes := updAt st.sched.processes r
              (fun p => p.setState ProcessState.READY) }
          { st with
            sched := s.contextSwitch cfg.contextSwitchOverhead (some r) (some topIdx)
            runningProcess := some topIdx }
        else st
    | none =>
        { st with
          sched := st.sched.contextSwitch cfg.contextSwitchOverhead none (some topIdx)
          runningProcess := some topIdx }
  match st1.runningProcess with
  | none => st1
  | some r =>
      let er := (getP st1.sched.processes r).execute 1
      let s2 := { st1.sched with
        processes := updAt st1.sched.processes r (fun _ => er.snd) }
      let s3 := { s2 with processes := chargeWaitingExcept s2.processes r 1 }
      let s4 := { s3 with currentTime := s3.currentTime + 1 }
      let st2 := { st1 with
        sched := s4
        gantt := st1.gantt ++ [(getP st1.sched.processes r).name] }
      if (getP st2.sched.processes r).isComplete then
        { st2 with
          sched := { st2.sched with
            processes := updAt st2.sched.processes r (fun p =>
              ((p.setCompletionTime st2.sched.currentTime).calculateMetrics).setState
                ProcessState.TERMINATED) }
          runningProcess := none }
      else st2

/-- One iteration of the `while (!allComplete)` loop of
PriorityScheduler::schedule (PriorityScheduler.cpp lines 53-191). -/
def prioStep (cfg : PrioConfig) (st : PrioState) : StepRes PrioState :=
  let stA := { st with sched := st.sched.admitArrivingProcesses }
  let stB :=
    if stA.sched.currentTime % cfg.agingInterval = 0 then
      { stA with sched := applyAging cfg stA.sched }
    else stA
  match prioTop stB.sched.processes with
  | none =>
      (match stB.runningProcess with
       | some r =>
           if ¬ (getP stB.sched.processes r).isComplete ∧ cfg.preemptive = false then
             prioRunUnit stB r
           else prioIdleOrHalt stB
       | none => prioIdleOrHalt stB)
  | some topIdx =>
      let stC :=
        if cfg.preemptive then prioDispatchP cfg stB topIdx
        else prioDispatchNP cfg stB topIdx
      if allTerminated stC.sched.processes then StepRes.halt stC
      else StepRes.next stC

def prioLoop (cfg : PrioConfig) : Nat → PrioState → Option PrioState
  | 0, _ => none
  | fuel + 1, st =>
      match prioStep cfg st with
      | StepRes.halt s => some s
      | StepRes.next s => prioLoop cfg fuel s

/-- Initial state of PriorityScheduler::schedule (lines 39-51): clock at the
earliest arrival, empty chart, null running process. -/
def prioStart (ps : List Process) : PrioState :=
  { sched := { processes := ps
               currentTime := earliestArrival ps
               totalContextSwitches := 0
               currentProcess := none }
    runningProcess := none
    gantt := [] }

/-- PriorityScheduler::schedule as a whole, with fuel. -/
def prioSchedule (cfg : PrioConfig) (fuel : Nat) (ps : List Process) :
    Option PrioState :=
  prioLoop cfg fuel (prioStart ps)

/-- QueueSchedulingAlgorithm from MultilevelQueueScheduler.h. -/
inductive QueueSchedulingAlgorithm where
  | FCFS
  | ROUND_ROBIN
deriving DecidableEq, Repr

/-- QueueConfig from MultilevelQueueScheduler.h: a queue descriptor. -/
structure QueueConfig where
  priority : Int
  algorithm : QueueSchedulingAlgorithm
  timeQuantum : Int
deriving DecidableEq, Repr

/-- MultilevelQueueScheduler::addQueueConfig (MultilevelQueueScheduler.cpp
lines 17-20) inserts into the std::map keyed by priority; the configured
queues are therefore a key-sorted list with unique keys, built by ordered
insertion.  No descriptor validation is performed. -/
def insertConfig (c : QueueConfig) : List QueueConfig → List QueueConfig
  | [] => [c]
  | d :: ds =>
      if c.priority < d.priority then c :: d :: ds
      else if c.priority = d.priority then c :: ds
      else d :: insertConfig c ds

def mlqConfigsFromAdds (adds : List QueueConfig) : List QueueConfig :=
  adds.foldl (fun acc c => insertConfig c acc) []

/-- Pointwise update of a key-indexed map (std::map operator[] write). -/
def updMapQ (f : Int → List Nat) (k : Int) (v : List Nat) : Int → List Nat :=
  fun x => if x = k then v else f x

/-- Mutable state of MultilevelQueueScheduler::schedule: base data, the
per-priority queues (keyed like the config map, empty by default), and the
Gantt chart. -/
structure MLQState where
  sched : SchedState
  queues : Int → List Nat
  gantt : List String

/-- Queue routing (MultilevelQueueScheduler.cpp lines 100-111): the first
descriptor, in ascending key order, whose key is at least the process
priority; otherwise the last (lowest) queue if any. -/
def mlqTargetQueue (configs : List QueueConfig) (p : Process) : Option Int :=
  match configs.find? (fun c => p.priority ≤ c.priority) with
  | some c => some c.priority
  | none => (configs.getLast?).map (fun c => c.priority)

/-- One iteration of the enqueue scans of MultilevelQueueScheduler::schedule
(lines 95-131 and 178-212). -/
def mlqEnqueueOne (configs : List QueueConfig) (skip : Option Nat)
    (st : MLQState) (i : Nat) : MLQState :=
  if (getP st.sched.processes i).state = ProcessState.READY ∧ skip ≠ some i ∧
      (getP st.sched.processes i).lastScheduledTime < st.sched.currentTime then
    match mlqTargetQueue configs (getP st.sched.processes i) with
    | none => st
    | some k =>
        if ¬ (st.queues k).contains i then
          { st with
            queues := updMapQ st.queues k (st.queues k ++ [i])
            sched := { st.sched with
              processes := updAt st.sched.processes i
                (fun q => q.setLastScheduledTime st.sched.currentTime) } }
        else st
  else st

def mlqEnqueuePass (configs : List QueueConfig) (skip : Option Nat)
    (st : MLQState) : MLQState :=
  (List.range st.sched.processes.length).foldl (mlqEnqueueOne configs skip) st

/-- MultilevelQueueScheduler::getHighestPriorityQueue (lines 26-34): the
lowest key, in ascending config order, whose queue is non-empty. -/
def mlqHighest (configs : List QueueConfig) (st : MLQState) : Option Int :=
  ((configs.find? (fun c => st.queues c.priority ≠ [])).map
    (fun c => c.priority))

/-- std::map operator[] read of a queue config (present for every key the
scheduler produces; absent keys default-construct). -/
def mlqConfigAt (configs : List QueueConfig) (k : Int) : QueueConfig :=
  ((configs.find? (fun c => c.priority = k)).getD
    { priority := k, algorithm := QueueSchedulingAlgorithm.FCFS, timeQuantum := 0 })

/-- MultilevelQueueScheduler::scheduleFromQueue (lines 36-75): FCFS runs the
process to completion, ROUND_ROBIN for one quantum; waiting time is charged
to the other READY processes. -/
def mlqScheduleFromQueue (configs : List QueueConfig) (st : MLQState)
    (k : Int) (idx : Nat) : MLQState :=
  match (mlqConfigAt configs k).algorithm with
  | QueueSchedulingAlgorithm.FCFS =>
      let burst := (getP st.sched.processes idx).remainingTime
      let er := (getP st.sched.processes idx).execute burst
      let s1 := { st.sched with
        processes := updAt st.sched.processes idx (fun _ => er.snd) }
      let s2 := { s1 with processes := chargeWaitingExcept s1.processes idx burst }
      { st with
        sched := { s2 with currentTime := s2.currentTime + burst }
        gantt := st.gantt ++
          List.replicate burst.toNat (getP st.sched.processes idx).name }
  | QueueSchedulingAlgorithm.ROUND_ROBIN =>
      let er := (getP st.sched.processes idx).execute
        (mlqConfigAt configs k).timeQuantum
      let executionTime := er.fst
      let s1 := { st.sched with
        processes := updAt st.sched.processes idx (fun _ => er.snd) }
      let s2 := { s1 with
        processes := chargeWaitingExcept s1.processes idx executionTime }
      { st with
        sched := { s2 with currentTime := s2.currentTime + executionTime }
        gantt := st.gantt ++
          List.replicate executionTime.toNat (getP st.sched.processes idx).name }

/-- The completion check of a Multilevel Queue dispatch (lines 165-217):
finalize a finished process, re-queue an unfinished ROUND_ROBIN process into
the same queue after admitting and enqueueing newly arrived processes, and
do nothing with an unfinished FCFS process. -/
def mlqFinishOrRequeue (configs : List QueueConfig) (st1 : MLQState)
    (k : Int) (idx : Nat) : MLQState :=
  if (getP st1.sched.processes idx).isComplete then
    { st1 with
      sched := { st1.sched with
        processes := updAt st1.sched.processes idx (fun p =>
          ((p.setCompletionTime st1.sched.currentTime).calculateMetrics).setState
            ProcessState.TERMINATED) } }
  else
    match (mlqConfigAt configs k).algorithm with
    | QueueSchedulingAlgorithm.ROUND_ROBIN =>
        let sta := { st1 with
          sched := { st1.sched with
            processes := updAt st1.sched.processes idx
              (fun p => p.setState ProcessState.READY) } }
        let stb := { sta with sched := sta.sched.admitArrivingProcesses }
        let stc := mlqEnqueuePass configs (some idx) stb
        { stc with
          queues := updMapQ stc.queues k (stc.queues k ++ [idx])
          sched := { stc.sched with
            processes := updAt stc.sched.processes idx
              (fun p => p.setLastScheduledTime stc.sched.currentTime) } }
    | QueueSchedulingAlgorithm.FCFS => st1

/-- The dispatch part of one MultilevelQueueScheduler::schedule iteration
(lines 155-219), after the head `idx` of queue `k` has been popped. -/
def mlqDispatch (configs : List QueueConfig) (ov : Int) (st : MLQState)
    (k : Int) (idx : Nat) : MLQState :=
  let s1 := st.sched.contextSwitch ov st.sched.currentProcess (some idx)
  let st1 := mlqScheduleFromQueue configs { st with sched := s1 } k idx
  let st2 := mlqFinishOrRequeue configs st1 k idx
  { st2 with sched := { st2.sched with currentProcess := none } }

/-- One iteration of the `while (!allComplete)` loop of
MultilevelQueueScheduler::schedule (lines 90-229). -/
def mlqStep (configs : List QueueConfig) (ov : Int) (st : MLQState) :
    StepRes MLQState :=
  let stA := { st with sched := st.sched.admitArrivingProcesses }
  let stB := mlqEnqueuePass configs none stA
  match mlqHighest configs stB with
  | none =>
      let na := nextArrival stB.sched.processes
      if na ≠ INT_MAX then
        StepRes.next { stB with
          sched := { stB.sched with currentTime := na }
          gantt := stB.gantt ++ ["IDLE"] }
      else StepRes.halt stB
  | some k =>
      let stC := mlqDispatch configs ov
        { stB with queues := updMapQ stB.queues k ((stB.queues k).tail) } k
        (((stB.queues k).head?).getD 0)
      if allTerminated stC.sched.processes then StepRes.halt stC
      else StepRes.next stC

def mlqLoop (configs : List QueueConfig) (ov : Int) :
    Nat → MLQState → Option MLQState
  | 0, _ => none
  | fuel + 1, st =>
      match mlqStep configs ov st with
      | StepRes.halt s => some s
      | StepRes.next s => mlqLoop configs ov fuel s

/-- Initial state of MultilevelQueueScheduler::schedule (lines 77-88). -/
def mlqStart (ps : List Process) : MLQState :=
  { sched := { processes := ps
               currentTime := earliestArrival ps
               totalContextSwitches := 0
               currentProcess := none }
    queues := fun _ => []
    gantt := [] }

/-- MultilevelQueueScheduler::schedule as a whole, with fuel. -/
def mlqSchedule (configs : List QueueConfig) (ov : Int) (fuel : Nat)
    (ps : List Process) : Option MLQState :=
  mlqLoop configs ov fuel (mlqStart ps)

/-- Pointwise update of a pid-keyed std::map<int,int>; absent keys read as 0
(operator[] value-initialization). -/
def updMapI (f : Int → Int) (k v : Int) : Int → Int :=
  fun x => if x = k then v else f x

/-- Default per-level quanta of the MultilevelFeedbackQueueScheduler
constructor (MultilevelFeedbackQueueScheduler.cpp lines 83-87): 2, 4, 6, ... -/
def mlfqDefaultQuanta (numQueues : Int) : List Int :=
  (List.range numQueues.toNat).map (fun i => 2 * ((i : Int) + 1))

/-- Mutable state of MultilevelFeedbackQueueScheduler::schedule: base data,
the per-level queues, the two pid-keyed maps, and the Gantt chart. -/
structure MLFQState where
  sched : SchedState
  queues : List (List Nat)
  processQueueLevel : Int → Int
  timeInQueue : Int → Int
  gantt : List String

/-- MultilevelFeedbackQueueScheduler::demoteProcess (lines 110-116): one level
down and a counter reset, but only when not already at the bottom level —
at the bottom, neither the level nor the counter changes. -/
def MLFQState.demoteProcess (st : MLFQState) (numQueues : Int) (pid : Int) :
    MLFQState :=
  if st.processQueueLevel pid < numQueues - 1 then
    { st with
      processQueueLevel := updMapI st.processQueueLevel pid
        (st.processQueueLevel pid + 1)
      timeInQueue := updMapI st.timeInQueue pid 0 }
  else st

/-- MultilevelFeedbackQueueScheduler::promoteProcess (lines 118-124). -/
def MLFQState.promoteProcess (st : MLFQState) (pid : Int) : MLFQState :=
  if 0 < st.processQueueLevel pid then
    { st with
      processQueueLevel := updMapI st.processQueueLevel pid
        (st.processQueueLevel pid - 1)
      timeInQueue := updMapI st.timeInQueue pid 0 }
  else st

/-- The per-process body of MultilevelFeedbackQueueScheduler::applyAging
(lines 131-137): increment the time-in-queue counter, then promote if the
incremented counter has reached the threshold. -/
def mlfqAgeOne (agingThreshold : Int) (st : MLFQState) (pid : Int) : MLFQState :=
  if agingThreshold ≤ st.timeInQueue pid + 1 then
    MLFQState.promoteProcess
      { st with timeInQueue := updMapI st.timeInQueue pid (st.timeInQueue pid + 1) }
      pid
  else
    { st with timeInQueue := updMapI st.timeInQueue pid (st.timeInQueue pid + 1) }

/-- MultilevelFeedbackQueueScheduler::applyAging (lines 126-139): every READY
process's time-in-queue counter is incremented, and the process is promoted
once the counter reaches the threshold. -/
def mlfqApplyAging (agingEnabled : Bool) (agingThreshold : Int)
    (st : MLFQState) : MLFQState :=
  if ¬ agingEnabled then st
  else
    st.sched.processes.foldl (fun acc p =>
      if p.state = ProcessState.READY then mlfqAgeOne agingThreshold acc p.pid
      else acc) st

/-- One iteration of the enqueue scans of
MultilevelFeedbackQueueScheduler::schedule (lines 171-194 and 259-281). -/
def mlfqEnqueueOne (skip : Option Nat) (st : MLFQState) (i : Nat) : MLFQState :=
  if (getP st.sched.processes i).state = ProcessState.READY ∧ skip ≠ some i ∧
      (getP st.sched.processes i).lastScheduledTime < st.sched.currentTime then
    if ¬ ((st.queues.get?
          (st.processQueueLevel (getP st.sched.processes i).pid).toNat).getD
        []).contains i then
      { st with
        queues := updAt st.queues
          (st.processQueueLevel (getP st.sched.processes i).pid).toNat
          (fun q => q ++ [i])
        sched := { st.sched with
          processes := updAt st.sched.processes i
            (fun q => q.setLastScheduledTime st.sched.currentTime) } }
    else st
  else st

def mlfqEnqueuePass (skip : Option Nat) (st : MLFQState) : MLFQState :=
  (List.range st.sched.processes.length).foldl (mlfqEnqueueOne skip) st

/-- MultilevelFeedbackQueueScheduler::getHighestPriorityQueue (lines 101-108):
the lowest level with a non-empty queue. -/
def mlfqHighest (queues : List (List Nat)) : Option Nat :=
  (List.range queues.length).find? (fun i => (queues.get? i).getD [] ≠ [])

/-- The tail of the MLFQ requeue path (lines 257-286): admit new arrivals,
enqueue them, then push the dispatched process (index `idx`, pid `pid`) onto
the queue of its current (possibly just-demoted) level and stamp it. -/
def mlfqRequeueTail (st : MLFQState) (idx : Nat) (pid : Int) : MLFQState :=
  let stc := { st with sched := st.sched.admitArrivingProcesses }
  let std := mlfqEnqueuePass (some idx) stc
  { std with
    queues := updAt std.queues (std.processQueueLevel pid).toNat
      (fun q => q ++ [idx])
    sched := { std.sched with
      processes := updAt std.sched.processes idx
        (fun p => p.setLastScheduledTime std.sched.currentTime) } }

/-- The READY reset of the dispatched process (line 250). -/
def mlfqSetReady (st1 : MLFQState) (idx : Nat) : MLFQState :=
  { st1 with
    sched := { st1.sched with
      processes := updAt st1.sched.processes idx
        (fun p => p.setState ProcessState.READY) } }

/-- The completion check of an MLFQ dispatch (lines 244-287): finalize a
finished process; otherwise set it READY, demote it if it consumed the whole
quantum, admit and enqueue new arrivals, and re-queue it at its (possibly
new) level. -/
def mlfqFinishOrRequeue (numQueues : Int) (quantum executionTime : Int)
    (st1 : MLFQState) (idx : Nat) : MLFQState :=
  if (getP st1.sched.processes idx).isComplete then
    { st1 with
      sched := { st1.sched with
        processes := updAt st1.sched.processes idx (fun p =>
          ((p.setCompletionTime st1.sched.currentTime).calculateMetrics).setState
            ProcessState.TERMINATED) } }
  else
    mlfqRequeueTail
      (if executionTime = quantum then
        (mlfqSetReady st1 idx).demoteProcess numQueues
          (getP (mlfqSetReady st1 idx).sched.processes idx).pid
      else mlfqSetReady st1 idx)
      idx
      (getP (mlfqSetReady st1 idx).sched.processes idx).pid

/-- The dispatch part of one MultilevelFeedbackQueueScheduler::schedule
iteration (lines 218-289), after the head `idx` of level `k` has been
popped. -/
def mlfqDispatch (numQueues : Int) (timeQuantums : List Int) (ov : Int)
    (st : MLFQState) (k : Nat) (idx : Nat) : MLFQState :=
  let s1 := st.sched.contextSwitch ov st.sched.currentProcess (some idx)
  let quantum := (timeQuantums.get? k).getD 0
  let er := (getP s1.processes idx).execute quantum
  let executionTime := er.fst
  let s2 := { s1 with processes := updAt s1.processes idx (fun _ => er.snd) }
  let s3 := { s2 with processes := chargeWaitingExcept s2.processes idx executionTime }
  let st1 := { st with
    sched := { s3 with currentTime := s3.currentTime + executionTime }
    gantt := st.gantt ++
      List.replicate executionTime.toNat (getP s1.processes idx).name }
  let st2 := mlfqFinishOrRequeue numQueues quantum executionTime st1 idx
  { st2 with sched := { st2.sched with currentProcess := none } }

/-- One iteration of the `while (!allComplete)` loop of
MultilevelFeedbackQueueScheduler::schedule (lines 162-299). -/
def mlfqStep (numQueues : Int) (agingEnabled : Bool) (agingThreshold : Int)
    (timeQuantums : List Int) (ov : Int) (st : MLFQState) : StepRes MLFQState :=
  let stA := { st with sched := st.sched.admitArrivingProcesses }
  let stB :=
    if stA.sched.currentTime % agingThreshold = 0 then
      mlfqApplyAging agingEnabled agingThreshold stA
    else stA
  let stC := mlfqEnqueuePass none stB
  match mlfqHighest stC.queues with
  | none =>
      let na := nextArrival stC.sched.processes
      if na ≠ INT_MAX then
        StepRes.next { stC with
          sched := { stC.sched with currentTime := na }
          gantt := stC.gantt ++ ["IDLE"] }
      else StepRes.halt stC
  | some k =>
      let stD := mlfqDispatch numQueues timeQuantums ov
        { stC with queues := updAt stC.queues k (fun q => q.tail) } k
        ((((stC.queues.get? k).getD []).head?).getD 0)
      if allTerminated stD.sched.processes then StepRes.halt stD
      else StepRes.next stD

def mlfqLoop (numQueues : Int) (agingEnabled : Bool) (agingThreshold : Int)
    (timeQuantums : List Int) (ov : Int) : Nat → MLFQState → Option MLFQState
  | 0, _ => none
  | fuel + 1, st =>
      match mlfqStep numQueues agingEnabled agingThreshold timeQuantums ov st with
      | StepRes.halt s => some s
      | StepRes.next s => mlfqLoop numQueues agingEnabled agingThreshold
          timeQuantums ov fuel s

/-- Initial state of MultilevelFeedbackQueueScheduler::schedule
(lines 141-158): every process at level 0 with a zero counter, the per-level
queues empty (constructor resize), the clock at the earliest arrival. -/
def mlfqStart (numQueues : Int) (ps : List Process) : MLFQState :=
  { sched := { processes := ps
               currentTime := earliestArrival ps
               totalContextSwitches := 0
               currentProcess := none }
    queues := List.replicate numQueues.toNat []
    processQueueLevel := fun _ => 0
    timeInQueue := fun _ => 0
    gantt := [] }

/-- MultilevelFeedbackQueueScheduler::schedule as a whole, with fuel. -/
def mlfqSchedule (numQueues : Int) (agingEnabled : Bool) (agingThreshold : Int)
    (timeQuantums : List Int) (ov : Int) (fuel : Nat) (ps : List Process) :
    Option MLFQState :=
  mlfqLoop numQueues agingEnabled agingThreshold timeQuantums ov fuel
    (mlfqStart numQueues ps)

/-- Apply `n` iterations of the MLFQ loop body, staying in place once the
loop has exited; used to name intermediate loop states. -/
def mlfqIter (numQueues : Int) (agingEnabled : Bool) (agingThreshold : Int)
    (timeQuantums : List Int) (ov : Int) : Nat → MLFQState → MLFQState
  | 0, st => st
  | n + 1, st =>
      match mlfqStep numQueues agingEnabled agingThreshold timeQuantums ov st with
      | StepRes.halt s => s
      | StepRes.next s => mlfqIter numQueues agingEnabled agingThreshold
          timeQuantums ov n s

/-- The state carried by a loop-step outcome. -/
def StepRes.stateOf {σ : Type} : StepRes σ → σ
  | StepRes.next s => s
  | StepRes.halt s => s

/-- The mutating operations of the public Process interface (Process.h):
everything a scheduler run may apply to a process after construction. -/
inductive ProcOp where
  | exec (quantum : Int)
  | resetOp
  | setSt (s : ProcessState)
  | setPrio (n : Int)
  | addWait (t : Int)
  | setStart (t : Int)
  | setCompletion (t : Int)
  | setLastSched (t : Int)
  | setFirstSched (b : Bool)
  | calcMetrics
deriving DecidableEq, Repr

def Process.applyOp (p : Process) : ProcOp → Process
  | ProcOp.exec q => (p.execute q).snd
  | ProcOp.resetOp => p.reset
  | ProcOp.setSt s => p.setState s
  | ProcOp.setPrio n => p.setPriority n
  | ProcOp.addWait t => p.addWaitingTime t
  | ProcOp.setStart t => p.setStartTime t
  | ProcOp.setCompletion t => p.setCompletionTime t
  | ProcOp.setLastSched t => p.setLastScheduledTime t
  | ProcOp.setFirstSched b => p.setFirstSchedule b
  | ProcOp.calcMetrics => p.calculateMetrics

def Process.applyOps (p : Process) (ops : List ProcOp) : Process :=
  ops.foldl Process.applyOp p

/-- The caller contract of Process::execute: no negative work is requested.
Every other operation is unconditionally allowed. -/
def ProcOp.validB : ProcOp → Bool
  | ProcOp.exec q => 0 ≤ q
  | _ => true

/-- The documented Process invariant: 0 ≤ remainingTime ≤ burstTime. -/
def ProcessInv (p : Process) : Prop :=
  0 ≤ p.remainingTime ∧ p.remainingTime ≤ p.burstTime

/-- C1 workload: P1(arrival 0, burst 4) and P2(arrival 0, burst 4). -/
def c1procs : List Process :=
  [Process.init 1 "P1" 0 4 0, Process.init 2 "P2" 0 4 0]

/-- C2 workload: the single process P1(arrival 0, burst 10) of
test_single_process in test_scheduler.cpp. -/
def c2procs : List Process :=
  [Process.init 1 "P1" 0 10 0]

/-- C3 workload: P1(0,5,prio 3), P2(1,3,prio 1), P3(2,2,prio 2). -/
def c3procs : List Process :=
  [Process.init 1 "P1" 0 5 3, Process.init 2 "P2" 1 3 1,
   Process.init 3 "P3" 2 2 2]

/-- C4 workload: P1(0,5) and P2(1,1), run with time quantum 0. -/
def c4procs : List Process :=
  [Process.init 1 "P1" 0 5 0, Process.init 2 "P2" 1 1 0]

/-- The state of the quantum-0 Round Robin run on `c4procs` after two loop
iterations; from here every further iteration reproduces it exactly. -/
def c4stuck : RRState :=
  rrIter (RRConfig.fromCtor 0 0) 2 (rrStart c4procs)

/-- C9 workload: P1(0,12) and P2(1,1) under a 2-level feedback queue with
default quanta (2 and 4) and aging threshold 3. -/
def c9procs : List Process :=
  [Process.init 1 "P1" 0 12 0, Process.init 2 "P2" 1 1 0]

/-- The C9 run just before its fifth loop iteration: P1 (pid 1, index 0) sits
at the bottom level 1 with a nonzero time-in-level counter and 10 remaining
units, about to be dispatched for the full level-1 quantum of 4. -/
def c9pre : MLFQState :=
  mlfqIter 2 true 3 (mlfqDefaultQuanta 2) 0 3 (mlfqStart 2 c9procs)

/-- The C9 run just after that dispatch. -/
def c9post : MLFQState :=
  mlfqIter 2 true 3 (mlfqDefaultQuanta 2) 0 4 (mlfqStart 2 c9procs)

/-- C9 boundary workload: P1(0,2) finishes exactly at the level-0 quantum 2;
P2(1,4) only makes the run reach P1 (an all-earliest-arrival workload would
exit immediately). -/
def c9bprocs : List Process :=
  [Process.init 1 "P1" 0 2 0, Process.init 2 "P2" 1 4 0]

/-- C10 witness workload: three staggered arrivals so the Round Robin run
actually dispatches repeatedly. -/
def c10procs : List Process :=
  [Process.init 1 "P1" 0 6 0, Process.init 2 "P2" 2 4 0,
   Process.init 3 "P3" 4 2 0]

/-- C7 witness scenario: P1 is RUNNING (already scheduled once), P2 has never
run; the clock stands at 10. -/
def c7state : SchedState :=
  { processes := [{ Process.init 1 "P1" 0 5 0 with
        state := ProcessState.RUNNING, firstSchedule := false },
      Process.init 2 "P2" 0 4 0]
    currentTime := 10
    totalContextSwitches := 0
    currentProcess := some 0 }

/-! Helper lemmas about list updates and reads. -/

theorem getElem?_updAt {α : Type} (l : List α) (i : Nat) (f : α → α) (j : Nat) :
    (updAt l i f)[j]? = if i = j then (l[j]?).map f else l[j]? := by
  induction l generalizing i j with
  | nil => simp [updAt]
  | cons a as ih =>
      cases i with
      | zero => cases j <;> simp [updAt]
      | succ n => cases j <;> simp [updAt, ih]

theorem length_updAt {α : Type} (l : List α) (i : Nat) (f : α → α) :
    (updAt l i f).length = l.length := by
  induction l generalizing i with
  | nil => simp [updAt]
  | cons a as ih => cases i <;> simp [updAt, ih]

theorem getP_eq_getElem (l : List Process) (k : Nat) (h : k < l.length) :
    getP l k = l[k] := by
  simp [getP, List.getElem?_eq_getElem h]

theorem getP_updAt_self (ps : List Process) (i : Nat) (f : Process → Process)
    (h : i < ps.length) :
    getP (updAt ps i f) i = f (getP ps i) := by
  simp [getP, getElem?_updAt, List.getElem?_eq_getElem h]

theorem getP_updAt_ne (ps : List Process) (i j : Nat) (f : Process → Process)
    (h : i ≠ j) :
    getP (updAt ps i f) j = getP ps j := by
  simp [getP, getElem?_updAt, h]

/-! C5: Process::reset against the constructor snapshot. -/

/-- C5 counterexample: a process constructed with priority 3 whose priority
was changed to 2 during the run (as PriorityScheduler::applyAging does) is
not restored to its initial snapshot by reset(): the priority stays 2. -/
theorem C5_reset_counterexample :
    (((((Process.init 1 "P1" 0 5 3).execute 2).snd.setState
          ProcessState.READY).addWaitingTime 3).setPriority 2).reset ≠
      Process.init 1 "P1" 0 5 3 ∧
    (((((Process.init 1 "P1" 0 5 3).execute 2).snd.setState
          ProcessState.READY).addWaitingTime 3).setPriority 2).reset.priority = 2 ∧
    (Process.init 1 "P1" 0 5 3).priority = 3 := by
  decide

/-- C5 (amended): Process::reset restores every field to its
just-constructed value except the priority, which keeps its current
(possibly aging-modified) value: resetting any process yields exactly the
process freshly constructed with the same identity and workload but with the
CURRENT priority. -/
theorem C5_reset_amended (p : Process) :
    p.reset = Process.init p.pid p.name p.arrivalTime p.burstTime p.priority := by
  cases p
  rfl

/-! C1 and C2: the Round Robin runs on all-earliest-arrival workloads. -/

/-- C1: on the claim scenario (quantum 2, zero overhead, P1(0,4), P2(0,4))
RoundRobinScheduler::schedule returns immediately: the enqueue guard
`lastScheduledTime < currentTime` is false for processes arriving at the
earliest arrival time, so the trace is empty, both processes stay READY and
no completion time is ever set — not the claimed trace P1P1P2P2P1P1P2P2 with
completions at 8. -/
theorem C1_round_robin_scenario :
    (rrSchedule (RRConfig.fromCtor 2 0) 20 c1procs).map (fun st =>
        (st.gantt,
         st.sched.processes.map (fun p => (p.state, p.completionTime, p.waitingTime)))) =
      some ([], [(ProcessState.READY, -1, 0), (ProcessState.READY, -1, 0)]) := by
  decide

/-- C2: schedule() can return with processes that are not TERMINATED.  On the
single-process workload of test_single_process (P1 arriving at 0, burst 10,
quantum 4), the Round Robin run ends at once and leaves P1 READY. -/
theorem C2_termination_code_bug :
    (rrSchedule (RRConfig.fromCtor 4 0) 20 c2procs).map (fun st =>
        st.sched.processes.map (fun p => p.state)) = some [ProcessState.READY] ∧
    ProcessState.READY ≠ ProcessState.TERMINATED := by
  decide

/-! C3: the non-preemptive Priority scenario. -/

/-- C3 counterexample: on the claim scenario the final waiting times are
P1 = 0, P2 = 0, P3 = 3 — not the claimed P1 = 0, P2 = 4, P3 = 6.  (P2 and P3
arrive during the bulk non-preemptive slice of P1 and are only admitted when
it ends, so no waiting accrues for that interval.) -/
theorem C3_waiting_counterexample :
    (prioSchedule (PrioConfig.fromCtor false false 5 0) 30 c3procs).map
        (fun st => st.sched.processes.map (fun p => p.waitingTime)) =
      some [0, 0, 3] ∧
    ¬ ([0, 0, 3] : List Int) = [0, 4, 6] := by
  decide

/-- C3 (amended): under the non-preemptive Priority scheduler with aging
disabled and zero overhead, the scenario executes P1 over 0-5, P2 over 5-8
and P3 over 8-10 (as claimed), but the final waiting times are P1 = 0,
P2 = 0, P3 = 3 (the claimed 4 and 6 are the response times of P2 and P3). -/
theorem C3_priority_scenario_amended :
    (prioSchedule (PrioConfig.fromCtor false false 5 0) 30 c3procs).map
        (fun st =>
          (st.gantt,
           st.sched.processes.map (fun p =>
             (p.state, p.startTime, p.completionTime, p.waitingTime, p.responseTime)))) =
      some (List.replicate 5 "P1" ++ List.replicate 3 "P2" ++ List.replicate 2 "P3",
        [(ProcessState.TERMINATED, 0, 5, 0, 0),
         (ProcessState.TERMINATED, 5, 8, 0, 4),
         (ProcessState.TERMINATED, 8, 10, 3, 6)]) := by
  rfl

/-! C6: Priority aging. -/

/-- C6 counterexample: at an aging cadence point (currentTime 5, interval 5,
so currentTime mod agingInterval = 0) a READY process with positive priority 4
that has waited only 2 units (lastScheduledTime 3) is NOT decremented by
PriorityScheduler::applyAging — the claim asserts that every READY process
with positive priority is decremented at the cadence. -/
theorem C6_aging_counterexample :
    (5 : Int) % (PrioConfig.fromCtor false true 5 0).agingInterval = 0 ∧
    ({ Process.init 1 "P1" 0 9 4 with
        state := ProcessState.READY, lastScheduledTime := 3 } : Process).state =
      ProcessState.READY ∧
    (0 : Int) < ({ Process.init 1 "P1" 0 9 4 with
        state := ProcessState.READY, lastScheduledTime := 3 } : Process).priority ∧
    getP (applyAging (PrioConfig.fromCtor false true 5 0)
        { processes := [{ Process.init 1 "P1" 0 9 4 with
            state := ProcessState.READY, lastScheduledTime := 3 }]
          currentTime := 5
          totalContextSwitches := 0
          currentProcess := none }).processes 0 =
      { Process.init 1 "P1" 0 9 4 with
        state := ProcessState.READY, lastScheduledTime := 3 } := by
  decide

/-- C6 (amended): whenever the aging cadence fires, applyAging decrements the
priority value of exactly those READY processes that have waited at least
agingInterval units since their lastScheduledTime and have a positive
priority value; every other process is unchanged, and a nonnegative priority
value never becomes negative. -/
theorem C6_aging_amended (cfg : PrioConfig) (s : SchedState) (k : Nat)
    (hk : k < s.processes.length) (hen : cfg.agingEnabled = true) :
    ((getP s.processes k).state = ProcessState.READY →
      cfg.agingInterval ≤ s.currentTime - (getP s.processes k).lastScheduledTime →
      0 < (getP s.processes k).priority →
      (getP (applyAging cfg s).processes k).priority =
        (getP s.processes k).priority - 1) ∧
    (¬ ((getP s.processes k).state = ProcessState.READY ∧
        cfg.agingInterval ≤ s.currentTime - (getP s.processes k).lastScheduledTime ∧
        0 < (getP s.processes k).priority) →
      getP (applyAging cfg s).processes k = getP s.processes k) ∧
    (0 ≤ (getP s.processes k).priority →
      0 ≤ (getP (applyAging cfg s).processes k).priority) := by
  have hq : getP (applyAging cfg s).processes k =
      (if (getP s.processes k).state = ProcessState.READY ∧
          cfg.agingInterval ≤ s.currentTime - (getP s.processes k).lastScheduledTime ∧
          0 < (getP s.processes k).priority then
        (getP s.processes k).setPriority ((getP s.processes k).priority - 1)
      else getP s.processes k) := by
    simp [applyAging, hen, getP, List.getElem?_eq_getElem hk]
  refine ⟨?_, ?_, ?_⟩
  · intro h1 h2 h3
    rw [hq, if_pos ⟨h1, h2, h3⟩]
    rfl
  · intro hcond
    rw [hq, if_neg hcond]
  · intro hp
    rw [hq]
    by_cases hcond : (getP s.processes k).state = ProcessState.READY ∧
        cfg.agingInterval ≤ s.currentTime - (getP s.processes k).lastScheduledTime ∧
        0 < (getP s.processes k).priority
    · rw [if_pos hcond]
      have h3 := hcond.2.2
      show (0 : Int) ≤ (getP s.processes k).priority - 1
      omega
    · rw [if_neg hcond]
      exact hp

/-- Witness for C6 (amended): a READY process with priority 5 that has waited
7 units under interval 5 is decremented to 4. -/
theorem C6_aging_amended_witness :
    (getP (applyAging (PrioConfig.fromCtor false true 5 0)
        { processes := [{ Process.init 1 "P1" 0 9 5 with
            state := ProcessState.READY }]
          currentTime := 7
          totalContextSwitches := 0
          currentProcess := none }).processes 0).priority = 4 := by
  have h := (C6_aging_amended (PrioConfig.fromCtor false true 5 0)
      { processes := [{ Process.init 1 "P1" 0 9 5 with
          state := ProcessState.READY }]
        currentTime := 7
        totalContextSwitches := 0
        currentProcess := none } 0 (by decide) (by decide)).1
    (by decide) (by decide) (by decide)
  exact h.trans (by decide)

/-! Closed forms of Scheduler::contextSwitch for each from/to shape. -/

theorem ctx_none_none (s : SchedState) (ov : Int) :
    s.contextSwitch ov none none = { s with currentProcess := none } := by
  simp [SchedState.contextSwitch]

theorem ctx_none_some (s : SchedState) (ov : Int) (j : Nat) :
    s.contextSwitch ov none (some j) =
      { s with
        processes := updAt s.processes j (promoteTo s.currentTime)
        currentProcess := some j } := by
  simp [SchedState.contextSwitch]

theorem ctx_some_none (s : SchedState) (ov : Int) (i : Nat) :
    s.contextSwitch ov (some i) none =
      { s with
        processes := updAt s.processes i demoteFrom
        currentProcess := none } := by
  simp [SchedState.contextSwitch]

theorem ctx_some_some_eq (s : SchedState) (ov : Int) (i : Nat) :
    s.contextSwitch ov (some i) (some i) =
      { s with
        processes := updAt (updAt s.processes i demoteFrom) i
          (promoteTo s.currentTime)
        currentProcess := some i } := by
  simp [SchedState.contextSwitch]

theorem ctx_some_some_ne (s : SchedState) (ov : Int) (i j : Nat) (h : i ≠ j) :
    s.contextSwitch ov (some i) (some j) =
      { s with
        totalContextSwitches := s.totalContextSwitches + 1
        currentTime := s.currentTime + ov
        processes := updAt (updAt s.processes i demoteFrom) j
          (promoteTo (s.currentTime + ov))
        currentProcess := some j } := by
  simp [SchedState.contextSwitch, h]

theorem demoteFrom_running {p : Process}
    (h : p.state = ProcessState.RUNNING) :
    demoteFrom p = p.setState ProcessState.READY := by
  simp [demoteFrom, h]

theorem promoteTo_state (t : Int) (p : Process) :
    (promoteTo t p).state = ProcessState.RUNNING := by
  simp only [promoteTo, Process.setState, Process.setStartTime,
    Process.setFirstSchedule]
  split <;> rfl

theorem promoteTo_first (t : Int) (p : Process) (h : p.firstSchedule = true) :
    (promoteTo t p).startTime = t ∧ (promoteTo t p).firstSchedule = false := by
  simp only [promoteTo, Process.setState, Process.setStartTime,
    Process.setFirstSchedule]
  rw [if_pos h]
  exact ⟨rfl, rfl⟩

theorem demoteFrom_firstSchedule (p : Process) :
    (demoteFrom p).firstSchedule = p.firstSchedule := by
  simp only [demoteFrom, Process.setState]
  split <;> rfl

/-! C7: Scheduler::contextSwitch. -/

/-- C7: contextSwitch increments the counter and advances the clock by the
configured overhead exactly when `from` and `to` are distinct and both
non-null, and otherwise changes neither; a non-null still-RUNNING `from`
(that is not also the target) ends READY; a non-null `to` ends RUNNING, and
on its first-ever selection its startTime is the current time after the
overhead (if any) was applied, with the firstSchedule flag cleared. -/
theorem C7_contextSwitch_spec (s : SchedState) (ov : Int)
    (fromIdx toIdx : Option Nat) :
    ((s.contextSwitch ov fromIdx toIdx).totalContextSwitches =
        s.totalContextSwitches +
          (if fromIdx ≠ toIdx ∧ fromIdx.isSome ∧ toIdx.isSome then 1 else 0)) ∧
    ((s.contextSwitch ov fromIdx toIdx).currentTime =
        s.currentTime +
          (if fromIdx ≠ toIdx ∧ fromIdx.isSome ∧ toIdx.isSome then ov else 0)) ∧
    ((s.contextSwitch ov fromIdx toIdx).currentProcess = toIdx) ∧
    (∀ i, fromIdx = some i → toIdx ≠ some i → i < s.processes.length →
      (getP s.processes i).state = ProcessState.RUNNING →
      (getP (s.contextSwitch ov fromIdx toIdx).processes i).state =
        ProcessState.READY) ∧
    (∀ j, toIdx = some j → j < s.processes.length →
      (getP (s.contextSwitch ov fromIdx toIdx).processes j).state =
        ProcessState.RUNNING ∧
      ((getP s.processes j).firstSchedule = true →
        (getP (s.contextSwitch ov fromIdx toIdx).processes j).startTime =
          s.currentTime +
            (if fromIdx ≠ toIdx ∧ fromIdx.isSome ∧ toIdx.isSome then ov else 0) ∧
        (getP (s.contextSwitch ov fromIdx toIdx).processes j).firstSchedule =
          false)) := by
  refine ⟨?_, ?_, ?_, ?_, ?_⟩
  · rcases fromIdx with _ | i0 <;> rcases toIdx with _ | j0
    · simp [ctx_none_none]
    · simp [ctx_none_some]
    · simp [ctx_some_none]
    · by_cases hij : i0 = j0
      · subst hij
        simp [ctx_some_some_eq]
      · simp [ctx_some_some_ne _ _ _ _ hij, hij]
  · rcases fromIdx with _ | i0 <;> rcases toIdx with _ | j0
    · simp [ctx_none_none]
    · simp [ctx_none_some]
    · simp [ctx_some_none]
    · by_cases hij : i0 = j0
      · subst hij
        simp [ctx_some_some_eq]
      · simp [ctx_some_some_ne _ _ _ _ hij, hij]
  · rfl
  · intro i hf ht hi hrun
    subst hf
    rcases toIdx with _ | j0
    · simp only [ctx_some_none]
      rw [getP_updAt_self _ _ _ hi, demoteFrom_running hrun]
      rfl
    · have hij : i ≠ j0 := fun he => ht (by rw [he])
      simp only [ctx_some_some_ne _ _ _ _ hij]
      rw [getP_updAt_ne _ _ _ _ (Ne.symm hij), getP_updAt_self _ _ _ hi,
        demoteFrom_running hrun]
      rfl
  · intro j ht hj
    subst ht
    rcases fromIdx with _ | i0
    · simp only [ctx_none_some]
      refine ⟨by rw [getP_updAt_self _ _ _ hj]; exact promoteTo_state _ _, ?_⟩
      intro hfs
      rw [getP_updAt_self _ _ _ hj]
      have h2 := promoteTo_first s.currentTime (getP s.processes j) hfs
      refine ⟨?_, h2.2⟩
      rw [h2.1]
      simp
    · by_cases hij : i0 = j
      · subst hij
        simp only [ctx_some_some_eq]
        have hj1 : i0 < (updAt s.processes i0 demoteFrom).length := by
          rw [length_updAt]; exact hj
        refine ⟨by rw [getP_updAt_self _ _ _ hj1]; exact promoteTo_state _ _, ?_⟩
        intro hfs
        rw [getP_updAt_self _ _ _ hj1]
        have hfs2 : (getP (updAt s.processes i0 demoteFrom) i0).firstSchedule =
            true := by
          rw [getP_updAt_self _ _ _ hj, demoteFrom_firstSchedule]
          exact hfs
        have h2 := promoteTo_first s.currentTime _ hfs2
        refine ⟨?_, h2.2⟩
        rw [h2.1]
        simp
      · simp only [ctx_some_some_ne _ _ _ _ hij]
        have hj1 : j < (updAt s.processes i0 demoteFrom).length := by
          rw [length_updAt]; exact hj
        refine ⟨by rw [getP_updAt_self _ _ _ hj1]; exact promoteTo_state _ _, ?_⟩
        intro hfs
        rw [getP_updAt_self _ _ _ hj1]
        have hfs2 : (getP (updAt s.processes i0 demoteFrom) j).firstSchedule =
            true := by
          rw [getP_updAt_ne _ _ _ _ hij]
          exact hfs
        have h2 := promoteTo_first (s.currentTime + ov) _ hfs2
        refine ⟨?_, h2.2⟩
        rw [h2.1]
        simp [hij]

/-- Witness for C7: a concrete switch between two distinct processes with
overhead 3 increments the counter, demotes the running source to READY and
stamps the target's start time at the post-overhead clock. -/
theorem C7_contextSwitch_spec_witness :
    (c7state.contextSwitch 3 (some 0) (some 1)).totalContextSwitches = 0 + 1 ∧
    (getP (c7state.contextSwitch 3 (some 0) (some 1)).processes 0).state =
      ProcessState.READY ∧
    (getP (c7state.contextSwitch 3 (some 0) (some 1)).processes 1).startTime =
      10 + 3 := by
  refine ⟨?_, ?_, ?_⟩
  · have h := (C7_contextSwitch_spec c7state 3 (some 0) (some 1)).1
    exact h.trans (by decide)
  · exact (C7_contextSwitch_spec c7state 3 (some 0) (some 1)).2.2.2.1 0 rfl
      (by decide) (by decide) (by decide)
  · have h := ((C7_contextSwitch_spec c7state 3 (some 0) (some 1)).2.2.2.2 1 rfl
      (by decide)).2 (by decide)
    exact h.1.trans (by decide)

/-! C8: Process::execute and the remaining-time invariant. -/

/-- C8: execute(units) returns min(units, remainingTime) and decreases
remainingTime by exactly that amount; and provided execute is only ever
called with nonnegative arguments, the invariant
0 ≤ remainingTime ≤ burstTime holds after construction (with nonnegative
burst) and after any sequence of public mutating operations. -/
theorem C8_execute_spec (pid : Int) (nm : String) (arr bt prio : Int)
    (hbt : 0 ≤ bt) (ops : List ProcOp) (hops : ops.all ProcOp.validB = true) :
    (∀ (p : Process) (q : Int), 0 ≤ q →
        (p.execute q).fst = min q p.remainingTime ∧
        (p.execute q).snd.remainingTime = p.remainingTime - (p.execute q).fst) ∧
    ProcessInv ((Process.init pid nm arr bt prio).applyOps ops) := by
  constructor
  · intro p q _
    exact ⟨rfl, rfl⟩
  · have hstep : ∀ (p : Process) (op : ProcOp), ProcessInv p →
        op.validB = true → ProcessInv (p.applyOp op) := by
      intro p op hp hv
      obtain ⟨h1, h2⟩ := hp
      cases op with
      | exec q =>
          have hq : 0 ≤ q := by simpa [ProcOp.validB] using hv
          simp only [Process.applyOp, Process.execute, ProcessInv]
          rcases le_total q p.remainingTime with h | h
          · rw [min_eq_left h]
            constructor <;> omega
          · rw [min_eq_right h]
            constructor <;> omega
      | resetOp =>
          simp only [Process.applyOp, Process.reset, ProcessInv]
          constructor <;> omega
      | setSt s => exact ⟨h1, h2⟩
      | setPrio n => exact ⟨h1, h2⟩
      | addWait t => exact ⟨h1, h2⟩
      | setStart t => exact ⟨h1, h2⟩
      | setCompletion t => exact ⟨h1, h2⟩
      | setLastSched t => exact ⟨h1, h2⟩
      | setFirstSched b => exact ⟨h1, h2⟩
      | calcMetrics => exact ⟨h1, h2⟩
    have hall : ∀ (l : List ProcOp) (p : Process), ProcessInv p →
        l.all ProcOp.validB = true → ProcessInv (p.applyOps l) := by
      intro l
      induction l with
      | nil => intro p hp _; exact hp
      | cons op l ih =>
          intro p hp hl
          rw [List.all_cons, Bool.and_eq_true] at hl
          have := ih (p.applyOp op) (hstep p op hp hl.1) hl.2
          simpa [Process.applyOps, List.foldl_cons] using this
    exact hall ops _ ⟨hbt, le_refl bt⟩ hops

/-- Witness for C8: the operation sequence execute 3, reset, execute 7 on a
process with burst 5 keeps the invariant, and execute 3 consumes exactly 3. -/
theorem C8_execute_spec_witness :
    ([ProcOp.exec 3, ProcOp.resetOp, ProcOp.exec 7].all ProcOp.validB = true) ∧
    ProcessInv ((Process.init 1 "P1" 0 5 2).applyOps
      [ProcOp.exec 3, ProcOp.resetOp, ProcOp.exec 7]) ∧
    ((Process.init 1 "P1" 0 5 2).execute 3).fst = 3 := by
  refine ⟨by decide, ?_, ?_⟩
  · exact (C8_execute_spec 1 "P1" 0 5 2 (by decide) _ (by decide)).2
  · have h := ((C8_execute_spec 1 "P1" 0 5 2 (by decide) [] (by decide)).1
      (Process.init 1 "P1" 0 5 2) 3 (by decide)).1
    exact h.trans (by decide)

/-! C9: MLFQ demotion. -/

/-- C9 counterexample: in the MLFQ run on c9procs (2 levels, default quanta
2 and 4, aging threshold 3), the fourth loop iteration dispatches P1 (pid 1,
index 0) at the bottom level 1 with time-in-level counter 1; it consumes the
entire level-1 quantum of 4 without finishing (remaining 10 -> 6, still
READY), yet afterwards its counter is still 1, not 0 — the claim's
"its time-in-level counter is reset to 0" fails at the bottom level. -/
theorem C9_demotion_counterexample :
    c9pre.processQueueLevel 1 = 1 ∧
    c9pre.timeInQueue 1 = 1 ∧
    (getP c9pre.sched.processes 0).remainingTime = 10 ∧
    ((mlfqDefaultQuanta 2).get? 1).getD 0 = 4 ∧
    (getP c9post.sched.processes 0).remainingTime = 6 ∧
    (getP c9post.sched.processes 0).state = ProcessState.READY ∧
    c9post.gantt = c9pre.gantt ++ List.replicate 4 "P1" ∧
    c9post.processQueueLevel 1 = 1 ∧
    ¬ c9post.timeInQueue 1 = 0 := by
  decide

/-- C9 (amended): when a dispatched process consumes its entire per-level
quantum without finishing, demoteProcess moves it from level L to L+1 with
its time-in-level counter reset to 0 whenever L < N-1, and leaves both the
level and the counter unchanged when L = N-1 (so the level always becomes
min(L+1, N-1), but the counter is only reset below the bottom level); a
process that finishes exactly at the quantum boundary is terminated and not
demoted. -/
theorem C9_demotion_amended :
    (∀ (numQueues : Int) (st : MLFQState) (pid : Int),
      (st.processQueueLevel pid < numQueues - 1 →
        (st.demoteProcess numQueues pid).processQueueLevel pid =
          st.processQueueLevel pid + 1 ∧
        (st.demoteProcess numQueues pid).timeInQueue pid = 0) ∧
      (¬ st.processQueueLevel pid < numQueues - 1 →
        st.demoteProcess numQueues pid = st)) ∧
    (mlfqSchedule 2 false 10 (mlfqDefaultQuanta 2) 0 30 c9bprocs).map
        (fun st => (st.processQueueLevel 1,
          (getP st.sched.processes 0).state,
          (getP st.sched.processes 0).completionTime,
          st.gantt)) =
      some (0, ProcessState.TERMINATED, 3,
        ["IDLE", "P1", "P1", "P2", "P2", "P2", "P2"]) := by
  constructor
  · intro numQueues st pid
    constructor
    · intro h
      simp [MLFQState.demoteProcess, h, updMapI]
    · intro h
      simp [MLFQState.demoteProcess, h]
  · decide

/-- Witness for C9 (amended): demoting from level 0 of a 2-level scheduler
moves to level 1 and clears the counter. -/
theorem C9_demotion_amended_witness :
    ((mlfqStart 2 c9procs).demoteProcess 2 1).processQueueLevel 1 = 0 + 1 ∧
    ((mlfqStart 2 c9procs).demoteProcess 2 1).timeInQueue 1 = 0 := by
  have h := (C9_demotion_amended.1 2 (mlfqStart 2 c9procs) 1).1 (by decide)
  exact ⟨h.1.trans (by decide), h.2⟩

/-! C4: no configuration validation, and a quantum-0 livelock. -/

/-- C4 counterexample: the Round Robin constructor accepts quantum 0 and a
negative overhead without any rejection (it just stores them), and the
quantum-0 run on c4procs misbehaves mid-simulation: after two iterations it
reaches a state that every further iteration reproduces exactly, so the loop
never exits (50 units of fuel are not enough, and by the amended theorem no
amount is). -/
theorem C4_no_validation_counterexample :
    (RRConfig.fromCtor 0 0).timeQuantum = 0 ∧
    (RRConfig.fromCtor 0 (-3)).contextSwitchOverhead = -3 ∧
    rrStep (RRConfig.fromCtor 0 0) c4stuck = StepRes.next c4stuck ∧
    rrSchedule (RRConfig.fromCtor 0 0) 50 c4procs = none := by
  decide

/-- C4 (amended): no configuration is rejected — the constructors store any
quantum and overhead unchanged — and a run with a non-positive quantum can
misbehave mid-simulation: the Round Robin schedule() on c4procs with quantum
0 makes no progress and never terminates (the fueled loop returns none for
every fuel). -/
theorem C4_amended_no_validation :
    (∀ (q ov : Int),
      (RRConfig.fromCtor q ov).timeQuantum = q ∧
      (RRConfig.fromCtor q ov).contextSwitchOverhead = ov) ∧
    (∀ fuel : Nat, rrSchedule (RRConfig.fromCtor 0 0) fuel c4procs = none) := by
  constructor
  · intro q ov
    exact ⟨rfl, rfl⟩
  · have hstuck : rrStep (RRConfig.fromCtor 0 0) c4stuck =
        StepRes.next c4stuck := by decide
    have hloop : ∀ (f : Nat) (s : RRState),
        rrStep (RRConfig.fromCtor 0 0) s = StepRes.next s →
        rrLoop (RRConfig.fromCtor 0 0) f s = none := by
      intro f
      induction f with
      | zero => intro s _; rfl
      | succ n ih =>
          intro s hs
          simp only [rrLoop, hs]
          exact ih s hs
    have e1 : rrStep (RRConfig.fromCtor 0 0) (rrStart c4procs) =
        StepRes.next (rrIter (RRConfig.fromCtor 0 0) 1 (rrStart c4procs)) := by
      decide
    have e2 : rrStep (RRConfig.fromCtor 0 0)
        (rrIter (RRConfig.fromCtor 0 0) 1 (rrStart c4procs)) =
        StepRes.next c4stuck := by
      decide
    intro fuel
    rcases fuel with _ | fuel
    · rfl
    rcases fuel with _ | n
    · simp only [rrSchedule, rrLoop, e1]
    · simp only [rrSchedule, rrLoop, e1, e2]
      exact hloop n c4stuck hstuck

/-! C10 machinery: every dispatch in the RR, MLQ and MLFQ schedulers passes
the (always-null) currentProcess as the `from` argument of contextSwitch, so
the counter never moves and the overhead is never read. -/

theorem foldl_invariant {σ α : Type} (f : σ → α → σ) (P : σ → Prop)
    (hf : ∀ s a, P s → P (f s a)) :
    ∀ (l : List α) (s : σ), P s → P (l.foldl f s) := by
  intro l
  induction l with
  | nil => intro s hs; exact hs
  | cons a l ih => intro s hs; exact ih (f s a) (hf s a hs)

theorem rrEnqueuePass_pres (skip : Option Nat) (st : RRState) :
    (rrEnqueuePass skip st).sched.currentProcess = st.sched.currentProcess ∧
    (rrEnqueuePass skip st).sched.totalContextSwitches =
      st.sched.totalContextSwitches := by
  unfold rrEnqueuePass
  refine foldl_invariant _ (fun x : RRState =>
    x.sched.currentProcess = st.sched.currentProcess ∧
    x.sched.totalContextSwitches = st.sched.totalContextSwitches) ?_ _ _ ⟨rfl, rfl⟩
  intro s i hs
  unfold rrEnqueueOne
  split
  · exact hs
  · exact hs

theorem rrFinishOrRequeue_pres (st : RRState) (idx : Nat) :
    (rrFinishOrRequeue st idx).sched.currentProcess =
      st.sched.currentProcess ∧
    (rrFinishOrRequeue st idx).sched.totalContextSwitches =
      st.sched.totalContextSwitches := by
  unfold rrFinishOrRequeue
  split
  · exact ⟨rfl, rfl⟩
  · exact (rrEnqueuePass_pres (some idx) _)

theorem rrDispatch_pres (cfg : RRConfig) (st : RRState) (idx : Nat)
    (h : st.sched.currentProcess = none) :
    (rrDispatch cfg st idx).sched.currentProcess = none ∧
    (rrDispatch cfg st idx).sched.totalContextSwitches =
      st.sched.totalContextSwitches := by
  refine ⟨rfl, ((rrFinishOrRequeue_pres _ idx).2).trans ?_⟩
  show (st.sched.contextSwitch cfg.contextSwitchOverhead
      st.sched.currentProcess (some idx)).totalContextSwitches =
    st.sched.totalContextSwitches
  rw [h, ctx_none_some]

theorem rrDispatch_ov (q ov ov' : Int) (st : RRState) (idx : Nat)
    (h : st.sched.currentProcess = none) :
    rrDispatch (RRConfig.fromCtor q ov) st idx =
      rrDispatch (RRConfig.fromCtor q ov') st idx := by
  unfold rrDispatch
  rw [h, ctx_none_some, ctx_none_some]
  rfl

theorem rrStep_ov (q ov ov' : Int) (st : RRState)
    (h : st.sched.currentProcess = none) :
    rrStep (RRConfig.fromCtor q ov) st = rrStep (RRConfig.fromCtor q ov') st := by
  have hB : (rrEnqueuePass none
      { st with sched := st.sched.admitArrivingProcesses }).sched.currentProcess =
      none := by
    rw [(rrEnqueuePass_pres none _).1]
    exact h
  cases hq : (rrEnqueuePass none
      { st with sched := st.sched.admitArrivingProcesses }).readyQueue with
  | nil => simp only [rrStep, hq]
  | cons idx rest =>
      simp only [rrStep, hq]
      rw [rrDispatch_ov q ov ov'
        { rrEnqueuePass none
            { st with sched := st.sched.admitArrivingProcesses } with
          readyQueue := rest } idx hB]

theorem rrStep_pres (cfg : RRConfig) (st : RRState)
    (h : st.sched.currentProcess = none) :
    (rrStep cfg st).stateOf.sched.currentProcess = none ∧
    (rrStep cfg st).stateOf.sched.totalContextSwitches =
      st.sched.totalContextSwitches := by
  have hB := rrEnqueuePass_pres none
    { st with sched := st.sched.admitArrivingProcesses }
  cases hq : (rrEnqueuePass none
      { st with sched := st.sched.admitArrivingProcesses }).readyQueue with
  | nil =>
      simp only [rrStep, hq]
      split
      · exact ⟨hB.1.trans h, hB.2⟩
      · exact ⟨hB.1.trans h, hB.2⟩
  | cons idx rest =>
      have hd := rrDispatch_pres cfg
        { rrEnqueuePass none { st with sched := st.sched.admitArrivingProcesses }
          with readyQueue := rest } idx (hB.1.trans h)
      simp only [rrStep, hq]
      split
      · exact ⟨hd.1, hd.2.trans hB.2⟩
      · exact ⟨hd.1, hd.2.trans hB.2⟩

theorem rrLoop_ov (q ov : Int) :
    ∀ (fuel : Nat) (st : RRState), st.sched.currentProcess = none →
      rrLoop (RRConfig.fromCtor q ov) fuel st =
        rrLoop (RRConfig.fromCtor q 0) fuel st ∧
      (∀ fin, rrLoop (RRConfig.fromCtor q ov) fuel st = some fin →
        fin.sched.totalContextSwitches = st.sched.totalContextSwitches) := by
  intro fuel
  induction fuel with
  | zero =>
      intro st h
      exact ⟨rfl, by intro fin hf; cases hf⟩
  | succ n ih =>
      intro st h
      have hcong := rrStep_ov q ov 0 st h
      have hpres := rrStep_pres (RRConfig.fromCtor q ov) st h
      cases hstep : rrStep (RRConfig.fromCtor q ov) st with
      | halt s =>
          have h0 : rrStep (RRConfig.fromCtor q 0) st = StepRes.halt s := by
            rw [← hcong]; exact hstep
          rw [hstep] at hpres
          constructor
          · simp only [rrLoop, hstep, h0]
          · intro fin hf
            simp only [rrLoop, hstep] at hf
            cases hf
            exact hpres.2
      | next s =>
          have h0 : rrStep (RRConfig.fromCtor q 0) st = StepRes.next s := by
            rw [← hcong]; exact hstep
          rw [hstep] at hpres
          have ihs := ih s hpres.1
          constructor
          · simp only [rrLoop, hstep, h0]
            exact ihs.1
          · intro fin hf
            simp only [rrLoop, hstep] at hf
            exact (ihs.2 fin hf).trans hpres.2

theorem mlqEnqueuePass_pres (configs : List QueueConfig) (skip : Option Nat)
    (st : MLQState) :
    (mlqEnqueuePass configs skip st).sched.currentProcess =
      st.sched.currentProcess ∧
    (mlqEnqueuePass configs skip st).sched.totalContextSwitches =
      st.sched.totalContextSwitches := by
  unfold mlqEnqueuePass
  refine foldl_invariant _ (fun x : MLQState =>
    x.sched.currentProcess = st.sched.currentProcess ∧
    x.sched.totalContextSwitches = st.sched.totalContextSwitches) ?_ _ _ ⟨rfl, rfl⟩
  intro s i hs
  unfold mlqEnqueueOne
  split
  · split
    · exact hs
    · split
      · exact hs
      · exact hs
  · exact hs

theorem mlqScheduleFromQueue_pres (configs : List QueueConfig) (st : MLQState)
    (k : Int) (idx : Nat) :
    (mlqScheduleFromQueue configs st k idx).sched.currentProcess =
      st.sched.currentProcess ∧
    (mlqScheduleFromQueue configs st k idx).sched.totalContextSwitches =
      st.sched.totalContextSwitches := by
  unfold mlqScheduleFromQueue
  cases (mlqConfigAt configs k).algorithm
  · exact ⟨rfl, rfl⟩
  · exact ⟨rfl, rfl⟩

theorem mlqFinishOrRequeue_pres (configs : List QueueConfig) (st1 : MLQState)
    (k : Int) (idx : Nat) :
    (mlqFinishOrRequeue configs st1 k idx).sched.currentProcess =
      st1.sched.currentProcess ∧
    (mlqFinishOrRequeue configs st1 k idx).sched.totalContextSwitches =
      st1.sched.totalContextSwitches := by
  unfold mlqFinishOrRequeue
  split
  · exact ⟨rfl, rfl⟩
  · cases (mlqConfigAt configs k).algorithm with
    | FCFS => exact ⟨rfl, rfl⟩
    | ROUND_ROBIN =>
        exact ⟨(mlqEnqueuePass_pres configs (some idx) _).1,
          (mlqEnqueuePass_pres configs (some idx) _).2⟩

theorem mlqDispatch_pres (configs : List QueueConfig) (ov : Int)
    (st : MLQState) (k : Int) (idx : Nat)
    (h : st.sched.currentProcess = none) :
    (mlqDispatch configs ov st k idx).sched.currentProcess = none ∧
    (mlqDispatch configs ov st k idx).sched.totalContextSwitches =
      st.sched.totalContextSwitches := by
  refine ⟨rfl, ((mlqFinishOrRequeue_pres configs _ k idx).2).trans ?_⟩
  refine ((mlqScheduleFromQueue_pres configs _ k idx).2).trans ?_
  show (st.sched.contextSwitch ov st.sched.currentProcess
      (some idx)).totalContextSwitches = st.sched.totalContextSwitches
  rw [h, ctx_none_some]

theorem mlqDispatch_ov (configs : List QueueConfig) (ov ov' : Int)
    (st : MLQState) (k : Int) (idx : Nat)
    (h : st.sched.currentProcess = none) :
    mlqDispatch configs ov st k idx = mlqDispatch configs ov' st k idx := by
  unfold mlqDispatch
  rw [h, ctx_none_some, ctx_none_some]

theorem mlqStep_ov (configs : List QueueConfig) (ov ov' : Int) (st : MLQState)
    (h : st.sched.currentProcess = none) :
    mlqStep configs ov st = mlqStep configs ov' st := by
  simp only [mlqStep]
  generalize hBe : mlqEnqueuePass configs none
    { st with sched := st.sched.admitArrivingProcesses } = B
  have hBcp : B.sched.currentProcess = none := by
    rw [← hBe]
    exact ((mlqEnqueuePass_pres configs none _).1).trans h
  cases hq : mlqHighest configs B with
  | none => rfl
  | some k =>
      dsimp only
      rw [mlqDispatch_ov configs ov ov'
        { B with queues := updMapQ B.queues k ((B.queues k).tail) } k
        (((B.queues k).head?).getD 0) hBcp]

theorem mlqStep_pres (configs : List QueueConfig) (ov : Int) (st : MLQState)
    (h : st.sched.currentProcess = none) :
    (mlqStep configs ov st).stateOf.sched.currentProcess = none ∧
    (mlqStep configs ov st).stateOf.sched.totalContextSwitches =
      st.sched.totalContextSwitches := by
  simp only [mlqStep]
  have hB := mlqEnqueuePass_pres configs none
    { st with sched := st.sched.admitArrivingProcesses }
  generalize hBe : mlqEnqueuePass configs none
    { st with sched := st.sched.admitArrivingProcesses } = B at hB
  cases hq : mlqHighest configs B with
  | none =>
      dsimp only
      split
      · exact ⟨hB.1.trans h, hB.2⟩
      · exact ⟨hB.1.trans h, hB.2⟩
  | some k =>
      have hd := mlqDispatch_pres configs ov
        { B with queues := updMapQ B.queues k ((B.queues k).tail) } k
        (((B.queues k).head?).getD 0) (hB.1.trans h)
      dsimp only
      split
      · exact ⟨hd.1, hd.2.trans hB.2⟩
      · exact ⟨hd.1, hd.2.trans hB.2⟩

theorem mlqLoop_ov (configs : List QueueConfig) (ov : Int) :
    ∀ (fuel : Nat) (st : MLQState), st.sched.currentProcess = none →
      mlqLoop configs ov fuel st = mlqLoop configs 0 fuel st ∧
      (∀ fin, mlqLoop configs ov fuel st = some fin →
        fin.sched.totalContextSwitches = st.sched.totalContextSwitches) := by
  intro fuel
  induction fuel with
  | zero =>
      intro st h
      exact ⟨rfl, by intro fin hf; cases hf⟩
  | succ n ih =>
      intro st h
      have hcong := mlqStep_ov configs ov 0 st h
      have hpres := mlqStep_pres configs ov st h
      cases hstep : mlqStep configs ov st with
      | halt s =>
          have h0 : mlqStep configs 0 st = StepRes.halt s := by
            rw [← hcong]; exact hstep
          rw [hstep] at hpres
          constructor
          · simp only [mlqLoop, hstep, h0]
          · intro fin hf
            simp only [mlqLoop, hstep] at hf
            cases hf
            exact hpres.2
      | next s =>
          have h0 : mlqStep configs 0 st = StepRes.next s := by
            rw [← hcong]; exact hstep
          rw [hstep] at hpres
          have ihs := ih s hpres.1
          constructor
          · simp only [mlqLoop, hstep, h0]
            exact ihs.1
          · intro fin hf
            simp only [mlqLoop, hstep] at hf
            exact (ihs.2 fin hf).trans hpres.2

theorem promoteProcess_sched (st : MLFQState) (pid : Int) :
    (st.promoteProcess pid).sched = st.sched := by
  unfold MLFQState.promoteProcess
  split
  · rfl
  · rfl

theorem demoteProcess_sched (st : MLFQState) (numQueues : Int) (pid : Int) :
    (st.demoteProcess numQueues pid).sched = st.sched := by
  unfold MLFQState.demoteProcess
  split
  · rfl
  · rfl

theorem mlfqAgeOne_sched (th : Int) (st : MLFQState) (pid : Int) :
    (mlfqAgeOne th st pid).sched = st.sched := by
  unfold mlfqAgeOne
  split
  · rw [promoteProcess_sched]
  · rfl

theorem mlfqApplyAging_sched (e : Bool) (th : Int) (st : MLFQState) :
    (mlfqApplyAging e th st).sched = st.sched := by
  unfold mlfqApplyAging
  split
  · rfl
  · refine foldl_invariant _ (fun x : MLFQState => x.sched = st.sched) ?_ _ _ rfl
    intro s p hs
    split
    · rw [mlfqAgeOne_sched]
      exact hs
    · exact hs

theorem mlfqEnqueuePass_pres (skip : Option Nat) (st : MLFQState) :
    (mlfqEnqueuePass skip st).sched.currentProcess =
      st.sched.currentProcess ∧
    (mlfqEnqueuePass skip st).sched.totalContextSwitches =
      st.sched.totalContextSwitches := by
  unfold mlfqEnqueuePass
  refine foldl_invariant _ (fun x : MLFQState =>
    x.sched.currentProcess = st.sched.currentProcess ∧
    x.sched.totalContextSwitches = st.sched.totalContextSwitches) ?_ _ _ ⟨rfl, rfl⟩
  intro s i hs
  unfold mlfqEnqueueOne
  split
  · split
    · exact hs
    · exact hs
  · exact hs

theorem mlfqRequeueTail_pres (st : MLFQState) (idx : Nat) (pid : Int) :
    (mlfqRequeueTail st idx pid).sched.currentProcess =
      st.sched.currentProcess ∧
    (mlfqRequeueTail st idx pid).sched.totalContextSwitches =
      st.sched.totalContextSwitches := by
  exact ⟨(mlfqEnqueuePass_pres (some idx) _).1,
    (mlfqEnqueuePass_pres (some idx) _).2⟩

theorem mlfqFinishOrRequeue_pres (numQueues quantum executionTime : Int)
    (st1 : MLFQState) (idx : Nat) :
    (mlfqFinishOrRequeue numQueues quantum executionTime st1 idx).sched.currentProcess =
      st1.sched.currentProcess ∧
    (mlfqFinishOrRequeue numQueues quantum executionTime st1 idx).sched.totalContextSwitches =
      st1.sched.totalContextSwitches := by
  unfold mlfqFinishOrRequeue
  split
  · exact ⟨rfl, rfl⟩
  · constructor
    · refine ((mlfqRequeueTail_pres _ idx _).1).trans ?_
      split
      · rw [demoteProcess_sched]
        rfl
      · rfl
    · refine ((mlfqRequeueTail_pres _ idx _).2).trans ?_
      split
      · rw [demoteProcess_sched]
        rfl
      · rfl

theorem mlfqDispatch_pres (numQueues : Int) (timeQuantums : List Int)
    (ov : Int) (st : MLFQState) (k : Nat) (idx : Nat)
    (h : st.sched.currentProcess = none) :
    (mlfqDispatch numQueues timeQuantums ov st k idx).sched.currentProcess =
      none ∧
    (mlfqDispatch numQueues timeQuantums ov st k idx).sched.totalContextSwitches =
      st.sched.totalContextSwitches := by
  refine ⟨rfl, ((mlfqFinishOrRequeue_pres numQueues _ _ _ idx).2).trans ?_⟩
  show (st.sched.contextSwitch ov st.sched.currentProcess
      (some idx)).totalContextSwitches = st.sched.totalContextSwitches
  rw [h, ctx_none_some]

theorem mlfqDispatch_ov (numQueues : Int) (timeQuantums : List Int)
    (ov ov' : Int) (st : MLFQState) (k : Nat) (idx : Nat)
    (h : st.sched.currentProcess = none) :
    mlfqDispatch numQueues timeQuantums ov st k idx =
      mlfqDispatch numQueues timeQuantums ov' st k idx := by
  unfold mlfqDispatch
  rw [h, ctx_none_some, ctx_none_some]

theorem mlfqStep_ov (numQueues : Int) (ae : Bool) (th : Int)
    (timeQuantums : List Int) (ov ov' : Int) (st : MLFQState)
    (h : st.sched.currentProcess = none) :
    mlfqStep numQueues ae th timeQuantums ov st =
      mlfqStep numQueues ae th timeQuantums ov' st := by
  simp only [mlfqStep]
  generalize hCe : mlfqEnqueuePass none
    (if ({ st with sched := st.sched.admitArrivingProcesses }
          : MLFQState).sched.currentTime % th = 0 then
      mlfqApplyAging ae th { st with sched := st.sched.admitArrivingProcesses }
    else { st with sched := st.sched.admitArrivingProcesses }) = C
  have hCcp : C.sched.currentProcess = none := by
    rw [← hCe]
    refine ((mlfqEnqueuePass_pres none _).1).trans ?_
    split
    · rw [mlfqApplyAging_sched]
      exact h
    · exact h
  cases hq : mlfqHighest C.queues with
  | none => rfl
  | some k =>
      dsimp only
      rw [mlfqDispatch_ov numQueues timeQuantums ov ov'
        { C with queues := updAt C.queues k (fun q => q.tail) } k
        ((((C.queues.get? k).getD []).head?).getD 0) hCcp]

theorem mlfqStep_pres (numQueues : Int) (ae : Bool) (th : Int)
    (timeQuantums : List Int) (ov : Int) (st : MLFQState)
    (h : st.sched.currentProcess = none) :
    (mlfqStep numQueues ae th timeQuantums ov st).stateOf.sched.currentProcess =
      none ∧
    (mlfqStep numQueues ae th timeQuantums ov st).stateOf.sched.totalContextSwitches =
      st.sched.totalContextSwitches := by
  simp only [mlfqStep]
  generalize hCe : mlfqEnqueuePass none
    (if ({ st with sched := st.sched.admitArrivingProcesses }
          : MLFQState).sched.currentTime % th = 0 then
      mlfqApplyAging ae th { st with sched := st.sched.admitArrivingProcesses }
    else { st with sched := st.sched.admitArrivingProcesses }) = C
  have hC : C.sched.currentProcess = none ∧
      C.sched.totalContextSwitches = st.sched.totalContextSwitches := by
    rw [← hCe]
    constructor
    · refine ((mlfqEnqueuePass_pres none _).1).trans ?_
      split
      · rw [mlfqApplyAging_sched]
        exact h
      · exact h
    · refine ((mlfqEnqueuePass_pres none _).2).trans ?_
      split
      · rw [mlfqApplyAging_sched]
        rfl
      · rfl
  cases hq : mlfqHighest C.queues with
  | none =>
      dsimp only
      split
      · exact ⟨hC.1, hC.2⟩
      · exact ⟨hC.1, hC.2⟩
  | some k =>
      have hd := mlfqDispatch_pres numQueues timeQuantums ov
        { C with queues := updAt C.queues k (fun q => q.tail) } k
        ((((C.queues.get? k).getD []).head?).getD 0) hC.1
      dsimp only
      split
      · exact ⟨hd.1, hd.2.trans hC.2⟩
      · exact ⟨hd.1, hd.2.trans hC.2⟩

theorem mlfqLoop_ov (numQueues : Int) (ae : Bool) (th : Int)
    (timeQuantums : List Int) (ov : Int) :
    ∀ (fuel : Nat) (st : MLFQState), st.sched.currentProcess = none →
      mlfqLoop numQueues ae th timeQuantums ov fuel st =
        mlfqLoop numQueues ae th timeQuantums 0 fuel st ∧
      (∀ fin, mlfqLoop numQueues ae th timeQuantums ov fuel st = some fin →
        fin.sched.totalContextSwitches = st.sched.totalContextSwitches) := by
  intro fuel
  induction fuel with
  | zero =>
      intro st h
      exact ⟨rfl, by intro fin hf; cases hf⟩
  | succ n ih =>
      intro st h
      have hcong := mlfqStep_ov numQueues ae th timeQuantums ov 0 st h
      have hpres := mlfqStep_pres numQueues ae th timeQuantums ov st h
      cases hstep : mlfqStep numQueues ae th timeQuantums ov st with
      | halt s =>
          have h0 : mlfqStep numQueues ae th timeQuantums 0 st =
              StepRes.halt s := by
            rw [← hcong]; exact hstep
          rw [hstep] at hpres
          constructor
          · simp only [mlfqLoop, hstep, h0]
          · intro fin hf
            simp only [mlfqLoop, hstep] at hf
            cases hf
            exact hpres.2
      | next s =>
          have h0 : mlfqStep numQueues ae th timeQuantums 0 st =
              StepRes.next s := by
            rw [← hcong]; exact hstep
          rw [hstep] at hpres
          have ihs := ih s hpres.1
          constructor
          · simp only [mlfqLoop, hstep, h0]
            exact ihs.1
          · intro fin hf
            simp only [mlfqLoop, hstep] at hf
            exact (ihs.2 fin hf).trans hpres.2

/-- C10: in the Round Robin, Multilevel Queue and Multilevel Feedback Queue
schedulers, for every workload and every configured context-switch overhead,
the run is exactly the run with zero overhead (the overhead never advances
the clock or anything else), and any completed run reports a total
context-switch count of 0: every dispatch passes the currentProcess field,
which is null at every loop iteration boundary, as the `from` argument of
contextSwitch. -/
theorem C10_zero_context_switches :
    (∀ (q ov : Int) (ps : List Process) (fuel : Nat),
      rrSchedule (RRConfig.fromCtor q ov) fuel ps =
        rrSchedule (RRConfig.fromCtor q 0) fuel ps ∧
      (∀ fin, rrSchedule (RRConfig.fromCtor q ov) fuel ps = some fin →
        fin.sched.totalContextSwitches = 0)) ∧
    (∀ (configs : List QueueConfig) (ov : Int) (ps : List Process) (fuel : Nat),
      mlqSchedule configs ov fuel ps = mlqSchedule configs 0 fuel ps ∧
      (∀ fin, mlqSchedule configs ov fuel ps = some fin →
        fin.sched.totalContextSwitches = 0)) ∧
    (∀ (numQueues : Int) (ae : Bool) (th : Int) (tq : List Int) (ov : Int)
        (ps : List Process) (fuel : Nat),
      mlfqSchedule numQueues ae th tq ov fuel ps =
        mlfqSchedule numQueues ae th tq 0 fuel ps ∧
      (∀ fin, mlfqSchedule numQueues ae th tq ov fuel ps = some fin →
        fin.sched.totalContextSwitches = 0)) := by
  refine ⟨?_, ?_, ?_⟩
  · intro q ov ps fuel
    have h := rrLoop_ov q ov fuel (rrStart ps) rfl
    exact ⟨h.1, fun fin hf => (h.2 fin hf).trans rfl⟩
  · intro configs ov ps fuel
    have h := mlqLoop_ov configs ov fuel (mlqStart ps) rfl
    exact ⟨h.1, fun fin hf => (h.2 fin hf).trans rfl⟩
  · intro numQueues ae th tq ov ps fuel
    have h := mlfqLoop_ov numQueues ae th tq ov fuel (mlfqStart numQueues ps) rfl
    exact ⟨h.1, fun fin hf => (h.2 fin hf).trans rfl⟩

/-- Witness for C10: a concrete Round Robin run with overhead 7 equals the
zero-overhead run and reports 0 context switches. -/
theorem C10_zero_context_switches_witness :
    (rrSchedule (RRConfig.fromCtor 3 7) 60 c10procs).map
        (fun st => st.sched.totalContextSwitches) = some 0 ∧
    rrSchedule (RRConfig.fromCtor 3 7) 60 c10procs =
      rrSchedule (RRConfig.fromCtor 3 0) 60 c10procs := by
  constructor
  · cases hr : rrSchedule (RRConfig.fromCtor 3 7) 60 c10procs with
    | none => exact absurd hr (by decide)
    | some fin =>
        have h := (C10_zero_context_switches.1 3 7 c10procs 60).2 fin hr
        simp [h]
  · exact (C10_zero_context_switches.1 3 7 c10procs 60).1

end CpuSched
